import Mathlib

/-!
Verification of the serde-partial crate: a shallow embedding of the
field/filter data model, the filtering serializer proxy, the struct-field
interception path, and the whole-entry map filtering adapter, together with
theorems about the crate's documented properties.

Conventions of the embedding:
* Rust `&mut self` methods on backend sub-serializers become explicit state
  passing `St → ... → Except E St`.
* A Rust panic (an abort, not an error value) is modelled by `Option`:
  `none` is a panic, `some r` is a normal (possibly `Except`-failing) result.
  Functions that cannot panic keep their plain type.
* The filter trait's `skip` can panic for the derive-generated filter
  (`panic!("unknown field")`), so skip predicates are `Field → Option Bool`.
* Machine `usize` values (lengths, counts) are `Nat`.
-/

namespace SerdePartial

/-- `Field<T>`: a newtype around a serde field name (`src/src/lib.rs`,
`Field { name: &'static str, _ty: PhantomData<T> }`).  The phantom owner-type
tag carries no data, so it does not appear in the model; two fields are equal
iff their names are equal, exactly as the derived `PartialEq` behaves for a
fixed owner type. -/
structure Field where
  name : String
deriving DecidableEq, Repr

/-- The serde data model, one constructor per `Serializer` entry point that a
value's `Serialize` implementation can invoke as its first (outermost) call.
Scalar payloads are carried exactly; `f32`/`f64` payloads are carried as raw
bit patterns (the code never inspects them, only forwards them).  For
compound values only the head call with its arguments is represented, since
every consumer in this development either forwards the head call or rejects
it immediately. -/
inductive SValue where
  | bool (b : Bool)
  | i8 (n : Int)
  | i16 (n : Int)
  | i32 (n : Int)
  | i64 (n : Int)
  | i128 (n : Int)
  | u8 (n : Nat)
  | u16 (n : Nat)
  | u32 (n : Nat)
  | u64 (n : Nat)
  | u128 (n : Nat)
  | f32 (bits : Nat)
  | f64 (bits : Nat)
  | char (c : Char)
  | str (s : String)
  | bytes (bs : List Nat)
  | noneV
  | someV (v : SValue)
  | unit
  | unitStruct (name : String)
  | unitVariant (name : String) (index : Nat) (variant : String)
  | newtypeStruct (name : String) (v : SValue)
  | newtypeVariant (name : String) (index : Nat) (variant : String) (v : SValue)
  | seq (len : Option Nat)
  | tuple (len : Nat)
  | tupleStruct (name : String) (len : Nat)
  | tupleVariant (name : String) (index : Nat) (variant : String) (len : Nat)
  | map (len : Option Nat)
  | struct' (name : String) (len : Nat)
  | structVariant (name : String) (index : Nat) (variant : String) (len : Nat)
deriving DecidableEq, Repr

/-- Whether a value's outermost serialization call is `serialize_str`. -/
def SValue.isStr : SValue → Bool
  | .str _ => true
  | _ => false

/-- The `SerializeFilter` trait of `src/src/filter.rs`: `skip` decides
whether a field is omitted (`none` models a panic inside a `skip`
implementation), `filtered_len` estimates the surviving field count. -/
structure SerializeFilter where
  skip : Field → Option Bool
  filtered_len : Option Nat → Option Nat

/-- `InverseFilter` (`src/src/filter.rs`): wraps a filter. -/
structure InverseFilter where
  filter : SerializeFilter

/-- `InverseFilter::skip` (`src/src/filter.rs` lines 30-32):
`!self.filter.skip(field)`.  The negation is applied to the inner result;
a panic in the inner filter propagates. -/
def InverseFilter.skip (self : InverseFilter) (f : Field) : Option Bool :=
  (self.filter.skip f).map (fun b => !b)

/-- `InverseFilter::filtered_len` (`src/src/filter.rs` lines 34-39):
`match (len, self.filter.filtered_len(len)) { (Some(len), Some(filtered_len))
=> Some(len - filtered_len), _ => None }`.  The subtraction is on `usize`:
when the inner estimate exceeds the total it underflows, which is an
arithmetic error in the source (a panic in debug builds, a wrap in release
builds), not a returned count; per this file's convention the underflow is
rendered as a panic, so the result is `Option (Option Nat)`: the outer
layer is panic/no-panic, the inner layer is the Rust `Option` return. -/
def InverseFilter.filtered_len (self : InverseFilter) (len : Option Nat) :
    Option (Option Nat) :=
  match len, self.filter.filtered_len len with
  | some l, some fl => if fl ≤ l then some (some (l - fl)) else none
  | _, _ => some none

/-- `InverseFilter::skip` as a transformation of the wrapped filter's `skip`
function (`src/src/lib.rs` lines 262-264, whose filter trait has only
`skip`): `!self.filter.skip(field)`. -/
def inverseSkip (inner : Field → Option Bool) (f : Field) : Option Bool :=
  (inner f).map (fun b => !b)

/-! ### Set-based filters for the associative-container adapters

`src/src/std.rs` implements `SerializeFilter<HashMap<K, V, S>>` for
`HashSet<Field<HashMap<K, V, S>>>` and `src/src/alloc.rs` the analogous
instance for `BTreeSet<Field<BTreeMap<K, V>>>`.  A set of fields is modelled
as a duplicate-free list of fields (`Nodup` is supplied as a hypothesis where
it matters, since both Rust set types maintain it). -/

/-- `HashSet` filter `skip` (`src/src/std.rs` lines 42-44):
`!self.contains(&field)`. -/
def hashSetSkip (s : List Field) (f : Field) : Option Bool :=
  some (!(s.contains f))

/-- `HashSet` filter `filtered_len` (`src/src/std.rs` lines 46-48):
`Some(self.len())`, ignoring the argument. -/
def hashSetFilteredLen (s : List Field) (_len : Option Nat) : Option Nat :=
  some s.length

/-- `BTreeSet` filter `skip` (`src/src/alloc.rs` lines 35-37):
`!self.contains(&field)`. -/
def btreeSetSkip (s : List Field) (f : Field) : Option Bool :=
  some (!(s.contains f))

/-- `BTreeSet` filter `filtered_len` (`src/src/alloc.rs` lines 39-41):
`Some(self.len())`, ignoring the argument. -/
def btreeSetFilteredLen (s : List Field) (_len : Option Nat) : Option Nat :=
  some s.length

/-! ### Derive-generated scaffolding (`src/macro/src/lib.rs`)

For a struct whose retained, renamed field names are `names` (in declared
order), the derive macro generates a fields struct (one `Field` per name, in
order), a filter struct (one `bool` per name, defaulting to `false`), a
`skip` that matches the queried field's name against the declared names in
order and panics with "unknown field" on no match, and a `with_fields` that
starts from the default filter and sets the flag for each selected field,
panicking with "unknown field" for a selection outside the name list.
The filter struct is modelled as an association list from names to flags,
in declared order. -/

/-- The generated fields value `Fields::FIELDS`: one descriptor per retained
field, in declared order (macro lines 69-75). -/
def genFields (names : List String) : List Field :=
  names.map Field.mk

/-- The generated filter's default value: every flag `false`
(macro line 93, `#[derive(Default)]` over per-field `bool`s). -/
def genFieldsInit (names : List String) : List (String × Bool) :=
  names.map (fun n => (n, false))

/-- One iteration of the generated `with_fields` loop body (macro lines
125-132): match the selected field's name against the declared names in
order and set that flag to `true`; no match is `panic!("unknown field")`,
modelled as `none`. -/
def genSetFlag : List (String × Bool) → String → Option (List (String × Bool))
  | [], _ => none
  | (k, b) :: rest, n =>
    if k = n then some ((k, true) :: rest)
    else (genSetFlag rest n).map (fun rest' => (k, b) :: rest')

/-- The generated `with_fields` (macro lines 117-138): build `FIELDS`, pass
it to the selection closure, start from the default filter and set a flag
per selected field; an unknown name panics. -/
def genWithFields (names : List String) (select : List Field → List Field) :
    Option (List (String × Bool)) :=
  (select (genFields names)).foldlM (fun flags f => genSetFlag flags f.name)
    (genFieldsInit names)

/-- The generated filter's `skip` (macro lines 101-108): match the field's
name against the declared names in order; a hit answers the negated flag,
no match is `panic!("unknown field")`, modelled as `none`. -/
def genSkip : List (String × Bool) → Field → Option Bool
  | [], _ => none
  | (k, b) :: rest, f => if k = f.name then some (!b) else genSkip rest f

/-! ### Associative-container `with_fields` (`src/src/std.rs`, `src/src/alloc.rs`)

Both map adapters build the field list from the map's current keys and
collect the selection closure's output into the corresponding set type,
with no validation whatsoever of the selected names.  A `BTreeSet` is
modelled as a name-sorted duplicate-free list, a `HashSet` as an insertion
collection that merely deduplicates (its iteration order is unspecified). -/

/-- Ordered, deduplicating insertion, as `BTreeSet::insert` maintains. -/
def btreeInsert (l : List Field) (f : Field) : List Field :=
  match l with
  | [] => [f]
  | g :: rest =>
    if f.name < g.name then f :: g :: rest
    else if f.name = g.name then g :: rest
    else g :: btreeInsert rest f

/-- `collect()` of an iterator of fields into a `BTreeSet`. -/
def btreeCollect (sel : List Field) : List Field :=
  sel.foldl btreeInsert []

/-- `SerializePartial::with_fields` for `BTreeMap` (`src/src/alloc.rs` lines
20-31): the field list is the map's keys, each made into a `Field`; the
filter is simply `select(fields).into_iter().collect()` — the selection is
collected into a `BTreeSet` with no membership check against the keys. -/
def btreeMapWithFields (keys : List String) (select : List Field → List Field) :
    List Field :=
  btreeCollect (select (keys.map Field.mk))

/-- Deduplicating collection (first occurrence kept), standing in for
`collect()` into a `HashSet`; only membership and cardinality of the result
are ever consumed. -/
def hashCollect (sel : List Field) : List Field :=
  sel.foldl (fun acc f => if acc.contains f then acc else acc ++ [f]) []

/-- `SerializePartial::with_fields` for `HashMap` (`src/src/std.rs` lines
24-35): identical to the `BTreeMap` version with a `HashSet` collection;
again no membership check against the keys. -/
def hashMapWithFields (keys : List String) (select : List Field → List Field) :
    List Field :=
  hashCollect (select (keys.map Field.mk))

/-! ### The backend serialization protocol

An abstract backend `Serializer` (the serde `Serializer` trait as consumed by
`src/src/lib.rs`): one function per protocol operation.  Terminal operations
produce `Except E Ok`; compound constructions produce a backend-specific
sub-serializer state.  The struct and map sub-serializer operations
(`SerializeStruct` / `SerializeMap` traits) are bundled with their begin
operations in `StructBackend` / `MapBackend` for the driver-level claims. -/

structure Serializer (Ok E SeqS TupS TSS TVS MapS StS SVS : Type) where
  is_human_readable : Bool
  serialize_bool : Bool → Except E Ok
  serialize_i8 : Int → Except E Ok
  serialize_i16 : Int → Except E Ok
  serialize_i32 : Int → Except E Ok
  serialize_i64 : Int → Except E Ok
  serialize_i128 : Int → Except E Ok
  serialize_u8 : Nat → Except E Ok
  serialize_u16 : Nat → Except E Ok
  serialize_u32 : Nat → Except E Ok
  serialize_u64 : Nat → Except E Ok
  serialize_u128 : Nat → Except E Ok
  serialize_f32 : Nat → Except E Ok
  serialize_f64 : Nat → Except E Ok
  serialize_char : Char → Except E Ok
  serialize_str : String → Except E Ok
  serialize_bytes : List Nat → Except E Ok
  serialize_none : Except E Ok
  serialize_some : SValue → Except E Ok
  serialize_unit : Except E Ok
  serialize_unit_struct : String → Except E Ok
  serialize_unit_variant : String → Nat → String → Except E Ok
  serialize_newtype_struct : String → SValue → Except E Ok
  serialize_newtype_variant : String → Nat → String → SValue → Except E Ok
  serialize_seq : Option Nat → Except E SeqS
  serialize_tuple : Nat → Except E TupS
  serialize_tuple_struct : String → Nat → Except E TSS
  serialize_tuple_variant : String → Nat → String → Nat → Except E TVS
  serialize_map : Option Nat → Except E MapS
  serialize_struct : String → Nat → Except E StS
  serialize_struct_variant : String → Nat → String → Nat → Except E SVS
  collect_str : String → Except E Ok
  collect_seq : List SValue → Except E Ok
  collect_map : List (SValue × SValue) → Except E Ok

variable {Ok E St SeqS TupS TSS TVS MapS StS SVS : Type}

/-- The state of the proxy's struct sub-serializer
(`PartialSerializeStruct { ss, filter, _ty }`): the backend's struct state
paired with the filter's `skip`. -/
structure PStructState (StS : Type) where
  ss : StS
  filterSkip : Field → Option Bool

/-- `PartialSerializer` (`src/src/lib.rs` lines 307-487): wraps a backend
serializer and a filter.  Every operation forwards the identical arguments
to the identical backend operation and returns its result unchanged, except
`serialize_struct`, which begins the backend's struct construction with the
same name and length and pairs the resulting state with the filter. -/
def partialSerializer (s : Serializer Ok E SeqS TupS TSS TVS MapS StS SVS)
    (skipf : Field → Option Bool) :
    Serializer Ok E SeqS TupS TSS TVS MapS (PStructState StS) SVS where
  is_human_readable := s.is_human_readable
  serialize_bool := s.serialize_bool
  serialize_i8 := s.serialize_i8
  serialize_i16 := s.serialize_i16
  serialize_i32 := s.serialize_i32
  serialize_i64 := s.serialize_i64
  serialize_i128 := s.serialize_i128
  serialize_u8 := s.serialize_u8
  serialize_u16 := s.serialize_u16
  serialize_u32 := s.serialize_u32
  serialize_u64 := s.serialize_u64
  serialize_u128 := s.serialize_u128
  serialize_f32 := s.serialize_f32
  serialize_f64 := s.serialize_f64
  serialize_char := s.serialize_char
  serialize_str := s.serialize_str
  serialize_bytes := s.serialize_bytes
  serialize_none := s.serialize_none
  serialize_some := s.serialize_some
  serialize_unit := s.serialize_unit
  serialize_unit_struct := s.serialize_unit_struct
  serialize_unit_variant := s.serialize_unit_variant
  serialize_newtype_struct := s.serialize_newtype_struct
  serialize_newtype_variant := s.serialize_newtype_variant
  serialize_seq := s.serialize_seq
  serialize_tuple := s.serialize_tuple
  serialize_tuple_struct := s.serialize_tuple_struct
  serialize_tuple_variant := s.serialize_tuple_variant
  serialize_map := s.serialize_map
  serialize_struct := fun name len =>
    (s.serialize_struct name len).map (fun ss => { ss := ss, filterSkip := skipf })
  serialize_struct_variant := s.serialize_struct_variant
  collect_str := s.collect_str
  collect_seq := s.collect_seq
  collect_map := s.collect_map

/-! ### Struct path (`src/src/struct.rs`, identical code in `src/src/lib.rs`
lines 489-520)

A backend's struct-construction capability: the begin operation plus the
`SerializeStruct` operations of the resulting sub-serializer, with the
mutable sub-serializer threaded as explicit state. -/

structure StructBackend (Ok E St : Type) where
  serialize_struct : String → Nat → Except E St
  serialize_field : St → String → SValue → Except E St
  skip_field : St → String → Except E St
  endStruct : St → Except E Ok

/-- `PartialSerializeStruct::skip_field`: `self.ss.skip_field(key)` — a plain
forward to the backend. -/
def psSkipField (b : StructBackend Ok E St) (st : St) (key : String) : Except E St :=
  b.skip_field st key

/-- `PartialSerializeStruct::serialize_field` (`src/src/struct.rs` lines
26-39): derive the field descriptor from the submitted key, ask the filter;
if skipped call the proxy's `skip_field` (which forwards to the backend's),
otherwise forward key and value to the backend unchanged.  A panic inside
`skip` (derive-generated filter on an unknown name) propagates as `none`. -/
def psSerializeField (b : StructBackend Ok E St) (skipf : Field → Option Bool)
    (st : St) (key : String) (v : SValue) : Option (Except E St) :=
  (skipf (Field.mk key)).map (fun skip =>
    if skip then psSkipField b st key else b.serialize_field st key v)

/-- `PartialSerializeStruct::end`: `self.ss.end()` — a plain forward. -/
def psEndStruct (b : StructBackend Ok E St) (st : St) : Except E Ok :=
  b.endStruct st

/-! ### Map path (`src/src/map.rs`) -/

/-- A backend's map-construction capability (`SerializeMap`), with the
mutable sub-serializer threaded as explicit state. -/
structure MapBackend (Ok E St : Type) where
  serialize_map : Option Nat → Except E St
  serialize_key : St → SValue → Except E St
  serialize_value : St → SValue → Except E St
  serialize_entry : St → SValue → SValue → Except E St
  endMap : St → Except E Ok

/-- `src/src/map.rs` line 38: the lone-key rejection message. -/
def LONE_KEYS_MSG : String :=
  "cannot perform partial serialization of lone keys, use `serialize_entry` instead if possible"

/-- `src/src/map.rs` line 45: the lone-value rejection message. -/
def LONE_VALUES_MSG : String :=
  "cannot perform partial serialization of lone values, use `serialize_entry` instead if possible"

/-- `src/src/map.rs` line 73: the non-string-key rejection message. -/
def KEY_ERR : String := "key should serialize to a string"

/-- `PartialSerializeMap::serialize_key` (`src/src/map.rs` lines 34-39):
unconditionally `Err(custom(...))`; the wrapped backend (`b`, `st`) and the
submitted key are received but never consulted. -/
def pmSerializeKey (b : MapBackend Ok E St) (custom : String → E) (st : St)
    (k : SValue) : Except E St :=
  .error (custom LONE_KEYS_MSG)

/-- `PartialSerializeMap::serialize_value` (`src/src/map.rs` lines 41-46):
unconditionally `Err(custom(...))`; backend and value never consulted. -/
def pmSerializeValue (b : MapBackend Ok E St) (custom : String → E) (st : St)
    (v : SValue) : Except E St :=
  .error (custom LONE_VALUES_MSG)

/-- `PartialSerializeMap::end` (`src/src/map.rs` lines 48-50):
`self.sm.end()` — a plain forward. -/
def pmEndMap (b : MapBackend Ok E St) (st : St) : Except E Ok :=
  b.endMap st

/-- `key.serialize(KeySerializer { filter, .. })` (`src/src/map.rs` lines
75-221): the key-probing sub-serializer.  Its only successful entry point is
`serialize_str`, which answers `Ok(filter.skip(Field::new(v)))`; every other
`Serializer` method answers `Err(custom(KEY_ERR))`.  The probe never touches
any backend: its result is only a boolean (or an error).  A panic inside
`skip` propagates as `none`. -/
def keyProbe (custom : String → E) (skipf : Field → Option Bool) :
    SValue → Option (Except E Bool)
  | .str v => (skipf (Field.mk v)).map .ok
  | .bool _ => some (.error (custom KEY_ERR))
  | .i8 _ => some (.error (custom KEY_ERR))
  | .i16 _ => some (.error (custom KEY_ERR))
  | .i32 _ => some (.error (custom KEY_ERR))
  | .i64 _ => some (.error (custom KEY_ERR))
  | .i128 _ => some (.error (custom KEY_ERR))
  | .u8 _ => some (.error (custom KEY_ERR))
  | .u16 _ => some (.error (custom KEY_ERR))
  | .u32 _ => some (.error (custom KEY_ERR))
  | .u64 _ => some (.error (custom KEY_ERR))
  | .u128 _ => some (.error (custom KEY_ERR))
  | .f32 _ => some (.error (custom KEY_ERR))
  | .f64 _ => some (.error (custom KEY_ERR))
  | .char _ => some (.error (custom KEY_ERR))
  | .bytes _ => some (.error (custom KEY_ERR))
  | .noneV => some (.error (custom KEY_ERR))
  | .someV _ => some (.error (custom KEY_ERR))
  | .unit => some (.error (custom KEY_ERR))
  | .unitStruct _ => some (.error (custom KEY_ERR))
  | .unitVariant _ _ _ => some (.error (custom KEY_ERR))
  | .newtypeStruct _ _ => some (.error (custom KEY_ERR))
  | .newtypeVariant _ _ _ _ => some (.error (custom KEY_ERR))
  | .seq _ => some (.error (custom KEY_ERR))
  | .tuple _ => some (.error (custom KEY_ERR))
  | .tupleStruct _ _ => some (.error (custom KEY_ERR))
  | .tupleVariant _ _ _ _ => some (.error (custom KEY_ERR))
  | .map _ => some (.error (custom KEY_ERR))
  | .struct' _ _ => some (.error (custom KEY_ERR))
  | .structVariant _ _ _ _ => some (.error (custom KEY_ERR))

/-- `PartialSerializeMap::serialize_entry` (`src/src/map.rs` lines 52-70):
probe the key through the `KeySerializer` (`?` propagates its error); when
the filter says skip answer `Ok(())` leaving the backend untouched,
otherwise forward the whole entry to the backend's `serialize_entry`. -/
def pmSerializeEntry (b : MapBackend Ok E St) (custom : String → E)
    (skipf : Field → Option Bool) (st : St) (k v : SValue) :
    Option (Except E St) :=
  match keyProbe custom skipf k with
  | none => none
  | some (.error e) => some (.error e)
  | some (.ok skip) => if skip then some (.ok st) else some (b.serialize_entry st k v)

/-! ### Serialization drivers

The call chain `value → proxy → backend` for a derived struct value and for
a string-keyed map value.  A derived `Serialize` implementation begins the
aggregate with the declared length, submits every field (entry) in declared
order and ends; the drivers below run that protocol through the proxy
(possibly panicking, hence `Option`) and directly against the backend. -/

/-- Run the field-submission loop of a struct's `Serialize` implementation
through a per-field step function (the proxy's interception). -/
def runStructFields (step : St → String → SValue → Option (Except E St)) :
    St → List (String × SValue) → Option (Except E St)
  | st, [] => some (.ok st)
  | st, (k, v) :: rest =>
    match step st k v with
    | none => none
    | some (.error e) => some (.error e)
    | some (.ok st') => runStructFields step st' rest

/-- The field-submission loop of a struct's `Serialize` implementation run
directly against the backend (no interception, no panic possible). -/
def runStructFieldsDirect (b : StructBackend Ok E St) :
    St → List (String × SValue) → Except E St
  | st, [] => .ok st
  | st, (k, v) :: rest =>
    match b.serialize_field st k v with
    | .error e => .error e
    | .ok st' => runStructFieldsDirect b st' rest

/-- Serialize a struct value (name plus fields in declared order) directly
against the backend: begin with the declared length, submit every field,
end. -/
def serializeStructDirect (b : StructBackend Ok E St) (sname : String)
    (fields : List (String × SValue)) : Except E Ok :=
  match b.serialize_struct sname fields.length with
  | .error e => .error e
  | .ok st =>
    match runStructFieldsDirect b st fields with
    | .error e => .error e
    | .ok st => b.endStruct st

/-- Serialize a struct value through the filtering proxy: the proxy's
`serialize_struct` forwards the same name and declared length, each field
submission goes through `psSerializeField`, `end` forwards. -/
def serializeStructViaProxy (b : StructBackend Ok E St)
    (skipf : Field → Option Bool) (sname : String)
    (fields : List (String × SValue)) : Option (Except E Ok) :=
  match b.serialize_struct sname fields.length with
  | .error e => some (.error e)
  | .ok st =>
    match runStructFields (psSerializeField b skipf) st fields with
    | none => none
    | some (.error e) => some (.error e)
    | some (.ok st) => some (psEndStruct b st)

/-- Run the entry-submission loop of a map's `Serialize` implementation
through a per-entry step function. -/
def runMapEntries (step : St → SValue → SValue → Option (Except E St)) :
    St → List (String × SValue) → Option (Except E St)
  | st, [] => some (.ok st)
  | st, (k, v) :: rest =>
    match step st (SValue.str k) v with
    | none => none
    | some (.error e) => some (.error e)
    | some (.ok st') => runMapEntries step st' rest

/-- Serialize a string-keyed map value through the filtering map adapter:
begin with the map's length, submit every entry whole through
`pmSerializeEntry`, end. -/
def serializeMapViaProxy (b : MapBackend Ok E St) (custom : String → E)
    (skipf : Field → Option Bool) (entries : List (String × SValue)) :
    Option (Except E Ok) :=
  match b.serialize_map (some entries.length) with
  | .error e => some (.error e)
  | .ok st =>
    match runMapEntries (pmSerializeEntry b custom skipf) st entries with
    | none => none
    | some (.error e) => some (.error e)
    | some (.ok st) => some (pmEndMap b st)

/-! ### Concrete observer backends

Particular backend instances used to observe what reaches the backend:
a recording struct backend (its state is the list of field keys whose
values were submitted), a counting map backend (its state is the number of
entries submitted), and a trivial map backend. -/

/-- Struct backend that records the keys of the fields whose values are
actually submitted; skipped fields and `end` leave the record unchanged. -/
def recordStructBackend : StructBackend (List String) Unit (List String) where
  serialize_struct := fun _ _ => .ok []
  serialize_field := fun st k _ => .ok (st ++ [k])
  skip_field := fun st _ => .ok st
  endStruct := fun st => .ok st

/-- The list of field keys a struct serialization through the proxy submits
to the backend (`none` when the filter panics). -/
def emittedKeys (skipf : Field → Option Bool) (fields : List (String × SValue)) :
    Option (List String) :=
  match serializeStructViaProxy recordStructBackend skipf "value" fields with
  | some (.ok ks) => some ks
  | _ => none

/-- Map backend that counts the entries actually submitted to it. -/
def countMapBackend : MapBackend Nat String Nat where
  serialize_map := fun _ => .ok 0
  serialize_key := fun n _ => .ok n
  serialize_value := fun n _ => .ok n
  serialize_entry := fun n _ _ => .ok (n + 1)
  endMap := fun n => .ok n

/-- The number of entries a map serialization through the filtering adapter
submits to the backend (`none` when the filter panics). -/
def emittedEntryCount (skipf : Field → Option Bool)
    (entries : List (String × SValue)) : Option Nat :=
  match serializeMapViaProxy countMapBackend id skipf entries with
  | some (.ok n) => some n
  | _ => none

/-- A trivial map backend over unit state, for concrete evaluations. -/
def unitMapBackend : MapBackend Unit String Unit where
  serialize_map := fun _ => .ok ()
  serialize_key := fun _ _ => .ok ()
  serialize_value := fun _ _ => .ok ()
  serialize_entry := fun _ _ _ => .ok ()
  endMap := fun _ => .ok ()

/-- A trivial struct backend over unit state, for concrete evaluations. -/
def unitStructBackend : StructBackend Unit String Unit where
  serialize_struct := fun _ _ => .ok ()
  serialize_field := fun _ _ _ => .ok ()
  skip_field := fun _ _ => .ok ()
  endStruct := fun _ => .ok ()

/-- A concrete full serializer whose result strings describe the operation
and arguments that reached it, for witnesses of the forwarding theorems. -/
def tagSerializer : Serializer String Unit String String String String String String String where
  is_human_readable := true
  serialize_bool := fun b => .ok (toString b)
  serialize_i8 := fun n => .ok (toString n)
  serialize_i16 := fun n => .ok (toString n)
  serialize_i32 := fun n => .ok (toString n)
  serialize_i64 := fun n => .ok (toString n)
  serialize_i128 := fun n => .ok (toString n)
  serialize_u8 := fun n => .ok (toString n)
  serialize_u16 := fun n => .ok (toString n)
  serialize_u32 := fun n => .ok (toString n)
  serialize_u64 := fun n => .ok (toString n)
  serialize_u128 := fun n => .ok (toString n)
  serialize_f32 := fun n => .ok (toString n)
  serialize_f64 := fun n => .ok (toString n)
  serialize_char := fun c => .ok (toString c)
  serialize_str := fun s => .ok s
  serialize_bytes := fun bs => .ok (toString bs.length)
  serialize_none := .ok "none"
  serialize_some := fun _ => .ok "some"
  serialize_unit := .ok "unit"
  serialize_unit_struct := fun n => .ok n
  serialize_unit_variant := fun n _ v => .ok (n ++ v)
  serialize_newtype_struct := fun n _ => .ok n
  serialize_newtype_variant := fun n _ v _ => .ok (n ++ v)
  serialize_seq := fun _ => .ok "seq"
  serialize_tuple := fun _ => .ok "tuple"
  serialize_tuple_struct := fun n _ => .ok n
  serialize_tuple_variant := fun n _ v _ => .ok (n ++ v)
  serialize_map := fun _ => .ok "map"
  serialize_struct := fun n _ => .ok n
  serialize_struct_variant := fun n _ v _ => .ok (n ++ v)
  collect_str := fun s => .ok s
  collect_seq := fun l => .ok (toString l.length)
  collect_map := fun l => .ok (toString l.length)

/-! ## Supporting lemmas about the generated filter -/

/-- Setting a flag for a name outside the declared names panics. -/
theorem genSetFlag_none_of_not_mem (flags : List (String × Bool)) (n : String)
    (h : n ∉ flags.map Prod.fst) : genSetFlag flags n = none := by
  induction flags with
  | nil => rfl
  | cons kb rest ih =>
    obtain ⟨k, b⟩ := kb
    simp only [List.map_cons, List.mem_cons] at h
    push_neg at h
    simp only [genSetFlag]
    rw [if_neg (fun hkn => h.1 hkn.symm), ih h.2]
    rfl

/-- Setting a flag for a declared name succeeds. -/
theorem genSetFlag_some_of_mem (flags : List (String × Bool)) (n : String)
    (h : n ∈ flags.map Prod.fst) :
    ∃ flags', genSetFlag flags n = some flags' := by
  induction flags with
  | nil => simp at h
  | cons kb rest ih =>
    obtain ⟨k, b⟩ := kb
    by_cases hk : k = n
    · exact ⟨(k, true) :: rest, by simp only [genSetFlag]; rw [if_pos hk]⟩
    · simp only [List.map_cons, List.mem_cons] at h
      rcases h with h | h
      · exact absurd h.symm hk
      · obtain ⟨rest', hrec⟩ := ih h
        exact ⟨(k, b) :: rest', by simp only [genSetFlag]; rw [if_neg hk, hrec]; rfl⟩

/-- Setting a flag preserves the declared names, makes the set name's skip
answer `false`, and never turns an existing `skip = false` answer into
anything else. -/
theorem genSetFlag_spec (flags flags' : List (String × Bool)) (n : String)
    (h : genSetFlag flags n = some flags') :
    flags'.map Prod.fst = flags.map Prod.fst ∧
    genSkip flags' (Field.mk n) = some false ∧
    (∀ f : Field, genSkip flags f = some false → genSkip flags' f = some false) := by
  induction flags generalizing flags' with
  | nil => exact absurd h (by simp [genSetFlag])
  | cons kb rest ih =>
    obtain ⟨k, b⟩ := kb
    simp only [genSetFlag] at h
    by_cases hk : k = n
    · rw [if_pos hk] at h
      injection h with h
      subst h
      refine ⟨rfl, ?_, ?_⟩
      · simp [genSkip, hk]
      · intro f hf
        simp only [genSkip] at hf ⊢
        by_cases hkf : k = f.name
        · rw [if_pos hkf]
          rfl
        · rw [if_neg hkf] at hf ⊢
          exact hf
    · rw [if_neg hk] at h
      cases hrec : genSetFlag rest n with
      | none => rw [hrec] at h; exact absurd h (by simp)
      | some rest' =>
        rw [hrec] at h
        simp only [Option.map_some', Option.some.injEq] at h
        subst h
        obtain ⟨hkeys, hset, hpres⟩ := ih rest' hrec
        refine ⟨by simp [hkeys], ?_, ?_⟩
        · simp only [genSkip]
          rw [if_neg hk]
          exact hset
        · intro f hf
          simp only [genSkip] at hf ⊢
          by_cases hkf : k = f.name
          · rw [if_pos hkf] at hf ⊢
            exact hf
          · rw [if_neg hkf] at hf ⊢
            exact hpres f hf

/-- The generated default filter is keyed by the declared names. -/
theorem genFieldsInit_keys : ∀ names : List String,
    (genFieldsInit names).map Prod.fst = names
  | [] => rfl
  | n :: ns => by
    show n :: (genFieldsInit ns).map Prod.fst = n :: ns
    rw [genFieldsInit_keys ns]

/-- Folding the generated `with_fields` loop over a selection whose names
are all declared succeeds, preserves the declared names, preserves existing
`skip = false` answers, and makes every selected field's skip answer
`false`. -/
theorem genFold_spec (sel : List Field) :
    ∀ flags : List (String × Bool), (∀ f ∈ sel, f.name ∈ flags.map Prod.fst) →
    ∃ flags', sel.foldlM (fun fl f => genSetFlag fl f.name) flags = some flags' ∧
      flags'.map Prod.fst = flags.map Prod.fst ∧
      (∀ f : Field, genSkip flags f = some false → genSkip flags' f = some false) ∧
      (∀ f ∈ sel, genSkip flags' f = some false) := by
  induction sel with
  | nil =>
    intro flags _
    exact ⟨flags, rfl, rfl, fun _ h => h, by simp⟩
  | cons g rest ih =>
    intro flags hmem
    obtain ⟨flags1, h1⟩ := genSetFlag_some_of_mem flags g.name (hmem g (by simp))
    obtain ⟨hkeys1, hset1, hpres1⟩ := genSetFlag_spec flags flags1 g.name h1
    obtain ⟨flags', hfold, hkeys, hpres, hsel⟩ := ih flags1
      (fun f hf => by rw [hkeys1]; exact hmem f (List.mem_cons_of_mem g hf))
    refine ⟨flags', ?_, hkeys.trans hkeys1, fun f hf => hpres f (hpres1 f hf), ?_⟩
    · rw [List.foldlM_cons, h1]
      exact hfold
    · intro f hf
      rcases List.mem_cons.mp hf with rfl | hf
      · exact hpres f hset1
      · exact hsel f hf

/-- When every field of the proxied value is not skipped, the proxied field
loop is the direct field loop. -/
theorem runStructFields_eq_direct (b : StructBackend Ok E St)
    (skipf : Field → Option Bool) (fields : List (String × SValue)) :
    ∀ st : St, (∀ kv ∈ fields, skipf (Field.mk kv.1) = some false) →
    runStructFields (psSerializeField b skipf) st fields =
      some (runStructFieldsDirect b st fields) := by
  induction fields with
  | nil => intro st _; rfl
  | cons kv rest ih =>
    intro st hall
    obtain ⟨k, v⟩ := kv
    have hk : skipf (Field.mk k) = some false := hall (k, v) (by simp)
    simp only [runStructFields, runStructFieldsDirect, psSerializeField, hk,
      Option.map_some, if_neg (by simp : ¬ false = true)]
    cases b.serialize_field st k v with
    | error e => rfl
    | ok st' => exact ih st' (fun kv hkv => hall kv (by simp [hkv]))

/-- Claim C1: full-selection identity.  For every struct value (name and
fields in declared order over the derive-generated field set) and every
backend, building the generated filter by `with_fields` with the selection
that returns every field of the field set succeeds, and serializing through
the filtering proxy with that filter is exactly serializing directly against
the backend: nothing is skipped, every operation reaches the backend
unchanged. -/
theorem full_selection_identity (b : StructBackend Ok E St)
    (names : List String) (sname : String) (fields : List (String × SValue))
    (h : fields.map Prod.fst = names) :
    ∃ flags, genWithFields names (fun fs => fs) = some flags ∧
      serializeStructViaProxy b (genSkip flags) sname fields =
        some (serializeStructDirect b sname fields) := by
  have hkeys : (genFieldsInit names).map Prod.fst = names := genFieldsInit_keys names
  obtain ⟨flags, hfold, _, _, hsel⟩ := genFold_spec (genFields names)
    (genFieldsInit names)
    (by intro f hf
        rw [hkeys]
        simp only [genFields, List.mem_map] at hf
        obtain ⟨n, hn, rfl⟩ := hf
        exact hn)
  refine ⟨flags, hfold, ?_⟩
  have hall : ∀ kv ∈ fields, genSkip flags (Field.mk kv.1) = some false := by
    intro kv hkv
    refine hsel (Field.mk kv.1) ?_
    simp only [genFields, List.mem_map]
    exact ⟨kv.1, by rw [← h]; exact List.mem_map_of_mem Prod.fst hkv, rfl⟩
  unfold serializeStructViaProxy serializeStructDirect
  cases hbs : b.serialize_struct sname fields.length with
  | error e => rfl
  | ok st =>
    dsimp only
    rw [runStructFields_eq_direct b (genSkip flags) fields st hall]
    cases runStructFieldsDirect b st fields with
    | error e => rfl
    | ok st' => rfl

/-- Witness for the full-selection identity at the recording backend and a
two-field struct: the proxied run equals the direct run. -/
theorem full_selection_identity_witness :
    ∃ flags, genWithFields ["a", "b"] (fun fs => fs) = some flags ∧
      serializeStructViaProxy recordStructBackend (genSkip flags) "User"
          [("a", SValue.bool true), ("b", SValue.u8 1)] =
        some (serializeStructDirect recordStructBackend "User"
          [("a", SValue.bool true), ("b", SValue.u8 1)]) :=
  full_selection_identity recordStructBackend ["a", "b"] "User"
    [("a", SValue.bool true), ("b", SValue.u8 1)] rfl

/-! ## Theorems -/

/-- Running the proxied field loop against the recording backend appends
exactly the keys of the non-skipped fields, provided the filter answers on
every submitted field. -/
theorem runStructFields_record (skipf : Field → Option Bool)
    (fields : List (String × SValue)) :
    ∀ st : List String, (∀ kv ∈ fields, (skipf (Field.mk kv.1)).isSome) →
    runStructFields (psSerializeField recordStructBackend skipf) st fields =
      some (.ok (st ++
        (fields.filter (fun kv => decide (skipf (Field.mk kv.1) = some false))).map
          Prod.fst)) := by
  induction fields with
  | nil => intro st _; simp [runStructFields]
  | cons kv rest ih =>
    intro st hall
    obtain ⟨k, v⟩ := kv
    have hall' : ∀ kv ∈ rest, (skipf (Field.mk kv.1)).isSome :=
      fun kv hkv => hall kv (List.mem_cons_of_mem _ hkv)
    cases hsk : skipf (Field.mk k) with
    | none =>
      have := hall (k, v) (by simp)
      rw [hsk] at this
      simp at this
    | some bb =>
      cases bb with
      | true =>
        have hstep : psSerializeField recordStructBackend skipf st k v =
            some (.ok st) := by
          simp [psSerializeField, hsk, psSkipField, recordStructBackend]
        rw [runStructFields, hstep]
        dsimp only
        rw [ih st hall']
        simp [List.filter_cons, hsk]
      | false =>
        have hstep : psSerializeField recordStructBackend skipf st k v =
            some (.ok (st ++ [k])) := by
          simp [psSerializeField, hsk, recordStructBackend]
        rw [runStructFields, hstep]
        dsimp only
        rw [ih (st ++ [k]) hall']
        simp [List.filter_cons, hsk]

/-- The emitted keys of a proxied struct serialization are the keys of the
fields the filter does not skip, in order. -/
theorem emittedKeys_eq (skipf : Field → Option Bool)
    (fields : List (String × SValue))
    (h : ∀ kv ∈ fields, (skipf (Field.mk kv.1)).isSome) :
    emittedKeys skipf fields =
      some ((fields.filter (fun kv => decide (skipf (Field.mk kv.1) = some false))).map
        Prod.fst) := by
  unfold emittedKeys serializeStructViaProxy
  rw [show recordStructBackend.serialize_struct "value" fields.length =
    Except.ok [] from rfl]
  dsimp only
  rw [runStructFields_record skipf fields [] h]
  rfl

/-- Serializing with a skip predicate and with its `InverseFilter` negation
emit complementary key sets over the value's fields, whenever the predicate
answers on every submitted field. -/
theorem emitted_complement (skipf : Field → Option Bool)
    (fields : List (String × SValue))
    (htot : ∀ kv ∈ fields, (skipf (Field.mk kv.1)).isSome) :
    ∃ incl excl,
      emittedKeys skipf fields = some incl ∧
      emittedKeys (inverseSkip skipf) fields = some excl ∧
      (∀ k, k ∈ excl ↔ k ∈ fields.map Prod.fst ∧ k ∉ incl) := by
  have htoti : ∀ kv ∈ fields, ((inverseSkip skipf) (Field.mk kv.1)).isSome := by
    intro kv hkv
    have h1 := htot kv hkv
    simp only [inverseSkip]
    cases hx : skipf (Field.mk kv.1) with
    | none => rw [hx] at h1; simp at h1
    | some b => simp
  have hinv : ∀ k : String,
      (inverseSkip skipf (Field.mk k) = some false) ↔
        skipf (Field.mk k) = some true := by
    intro k
    simp only [inverseSkip]
    cases skipf (Field.mk k) <;> simp
  refine ⟨_, _, emittedKeys_eq skipf fields htot,
    emittedKeys_eq (inverseSkip skipf) fields htoti, ?_⟩
  intro k
  simp only [List.mem_map, List.mem_filter, decide_eq_true_eq]
  constructor
  · rintro ⟨kv, ⟨hmem, hskip⟩, rfl⟩
    have htrue := (hinv kv.1).mp hskip
    refine ⟨⟨kv, hmem, rfl⟩, ?_⟩
    rintro ⟨kv', ⟨hmem', hfalse⟩, heq⟩
    rw [← heq] at htrue
    exact absurd (htrue.symm.trans hfalse) (by simp)
  · rintro ⟨⟨kv, hmem, rfl⟩, hnincl⟩
    have hs := htot kv hmem
    cases hx : skipf (Field.mk kv.1) with
    | none => rw [hx] at hs; simp at hs
    | some b =>
      cases b with
      | false => exact absurd ⟨kv, ⟨hmem, hx⟩, rfl⟩ hnincl
      | true => exact ⟨kv, ⟨hmem, (hinv kv.1).mpr hx⟩, rfl⟩

/-- A successful run of the generated `with_fields` loop preserves the
declared names as the filter's keys. -/
theorem genWithFields_keys :
    ∀ (sel : List Field) (flags flags' : List (String × Bool)),
      sel.foldlM (fun fl f => genSetFlag fl f.name) flags = some flags' →
      flags'.map Prod.fst = flags.map Prod.fst := by
  intro sel
  induction sel with
  | nil =>
    intro flags flags' h
    simp only [List.foldlM_nil] at h
    cases h
    rfl
  | cons g rest ih =>
    intro flags flags' h
    rw [List.foldlM_cons] at h
    cases h1 : genSetFlag flags g.name with
    | none => rw [h1] at h; exact absurd h (by simp)
    | some flags1 =>
      rw [h1] at h
      obtain ⟨hkeys1, -, -⟩ := genSetFlag_spec flags flags1 g.name h1
      exact (ih flags1 flags' h).trans hkeys1

/-- The generated filter's `skip` answers on every declared name. -/
theorem genSkip_isSome_of_mem :
    ∀ (flags : List (String × Bool)) (n : String), n ∈ flags.map Prod.fst →
      (genSkip flags (Field.mk n)).isSome := by
  intro flags
  induction flags with
  | nil => intro n h; simp at h
  | cons kb rest ih =>
    intro n h
    obtain ⟨k, b⟩ := kb
    simp only [genSkip]
    by_cases hk : k = n
    · rw [if_pos hk]
      rfl
    · rw [if_neg hk]
      simp only [List.map_cons, List.mem_cons] at h
      rcases h with h | h
      · exact absurd h.symm hk
      · exact ih n h

/-- Claim C3: `InverseFilter` negates its inner filter pointwise, and — for
a filter built from a selection, set-shaped or derive-generated — the set of
fields emitted when serializing with the filter is exactly the complement,
within the container's field set, of the set emitted with the filter wrapped
in `InverseFilter`. -/
theorem inverse_negation_duality :
    (∀ (F : SerializeFilter) (f : Field) (bb : Bool),
      F.skip f = some bb → (InverseFilter.mk F).skip f = some (!bb)) ∧
    (∀ (F : SerializeFilter) (names : List String) (fields : List (String × SValue)),
      fields.map Prod.fst = names →
      (∀ n ∈ names, (F.skip (Field.mk n)).isSome) →
      ∃ incl excl,
        emittedKeys F.skip fields = some incl ∧
        emittedKeys (InverseFilter.mk F).skip fields = some excl ∧
        (∀ k, k ∈ excl ↔ k ∈ names ∧ k ∉ incl)) ∧
    (∀ (names : List String) (select : List Field → List Field)
      (flags : List (String × Bool)) (fields : List (String × SValue)),
      genWithFields names select = some flags →
      fields.map Prod.fst = names →
      ∃ incl excl,
        emittedKeys (genSkip flags) fields = some incl ∧
        emittedKeys (inverseSkip (genSkip flags)) fields = some excl ∧
        (∀ k, k ∈ excl ↔ k ∈ names ∧ k ∉ incl)) := by
  refine ⟨?_, ?_, ?_⟩
  · intro F f bb h
    simp [InverseFilter.skip, h]
  · intro F names fields hnames htot
    subst hnames
    exact emitted_complement F.skip fields
      (fun kv hkv => htot kv.1 (List.mem_map_of_mem Prod.fst hkv))
  · intro names select flags fields hW hnames
    subst hnames
    have hkeys : flags.map Prod.fst = fields.map Prod.fst :=
      (genWithFields_keys _ _ flags hW).trans (genFieldsInit_keys _)
    refine emitted_complement (genSkip flags) fields ?_
    intro kv hkv
    exact genSkip_isSome_of_mem flags kv.1
      (by rw [hkeys]; exact List.mem_map_of_mem Prod.fst hkv)

/-- Witness for inverse negation and duality at the set filter `{ "a" }`
and at the generated filter built from the selection `["a"]`, both over the
two-field container `["a", "b"]`: the inverse skips "a", and in both shapes
the emitted sets are complementary. -/
theorem inverse_negation_duality_witness :
    (InverseFilter.mk
        ⟨btreeSetSkip [Field.mk "a"], btreeSetFilteredLen [Field.mk "a"]⟩).skip
      (Field.mk "a") = some true ∧
    (∃ incl excl,
      emittedKeys (btreeSetSkip [Field.mk "a"])
          [("a", SValue.u8 0), ("b", SValue.u8 1)] = some incl ∧
      emittedKeys (InverseFilter.mk
          ⟨btreeSetSkip [Field.mk "a"], btreeSetFilteredLen [Field.mk "a"]⟩).skip
          [("a", SValue.u8 0), ("b", SValue.u8 1)] = some excl ∧
      (∀ k, k ∈ excl ↔ k ∈ ["a", "b"] ∧ k ∉ incl)) ∧
    (∃ incl excl,
      emittedKeys (genSkip [("a", true), ("b", false)])
          [("a", SValue.u8 0), ("b", SValue.u8 1)] = some incl ∧
      emittedKeys (inverseSkip (genSkip [("a", true), ("b", false)]))
          [("a", SValue.u8 0), ("b", SValue.u8 1)] = some excl ∧
      (∀ k, k ∈ excl ↔ k ∈ ["a", "b"] ∧ k ∉ incl)) :=
  ⟨inverse_negation_duality.1
      ⟨btreeSetSkip [Field.mk "a"], btreeSetFilteredLen [Field.mk "a"]⟩
      (Field.mk "a") false (by decide),
   inverse_negation_duality.2.1
      ⟨btreeSetSkip [Field.mk "a"], btreeSetFilteredLen [Field.mk "a"]⟩
      ["a", "b"] [("a", SValue.u8 0), ("b", SValue.u8 1)] rfl (by decide),
   inverse_negation_duality.2.2
      ["a", "b"] (fun _ => [Field.mk "a"]) [("a", true), ("b", false)]
      [("a", SValue.u8 0), ("b", SValue.u8 1)] (by decide) rfl⟩

/-- Claim C2: pass-through with exactly two interception points.  For every
backend serializer and filter, every protocol operation other than
named-struct field submission and map entry submission — every scalar kind,
bytes, none/some, unit, unit struct, unit variant, newtype struct and
variant, sequence, tuple, tuple struct, tuple variant, map construction,
struct-variant construction, collect_str/seq/map, and the human-readable
flag — of the filtering proxy is the identical operation of the wrapped
backend: same arguments, result returned unchanged. -/
theorem proxy_forwards_noninterception_ops
    (s : Serializer Ok E SeqS TupS TSS TVS MapS StS SVS)
    (skipf : Field → Option Bool) :
    (partialSerializer s skipf).is_human_readable = s.is_human_readable ∧
    (partialSerializer s skipf).serialize_bool = s.serialize_bool ∧
    (partialSerializer s skipf).serialize_i8 = s.serialize_i8 ∧
    (partialSerializer s skipf).serialize_i16 = s.serialize_i16 ∧
    (partialSerializer s skipf).serialize_i32 = s.serialize_i32 ∧
    (partialSerializer s skipf).serialize_i64 = s.serialize_i64 ∧
    (partialSerializer s skipf).serialize_i128 = s.serialize_i128 ∧
    (partialSerializer s skipf).serialize_u8 = s.serialize_u8 ∧
    (partialSerializer s skipf).serialize_u16 = s.serialize_u16 ∧
    (partialSerializer s skipf).serialize_u32 = s.serialize_u32 ∧
    (partialSerializer s skipf).serialize_u64 = s.serialize_u64 ∧
    (partialSerializer s skipf).serialize_u128 = s.serialize_u128 ∧
    (partialSerializer s skipf).serialize_f32 = s.serialize_f32 ∧
    (partialSerializer s skipf).serialize_f64 = s.serialize_f64 ∧
    (partialSerializer s skipf).serialize_char = s.serialize_char ∧
    (partialSerializer s skipf).serialize_str = s.serialize_str ∧
    (partialSerializer s skipf).serialize_bytes = s.serialize_bytes ∧
    (partialSerializer s skipf).serialize_none = s.serialize_none ∧
    (partialSerializer s skipf).serialize_some = s.serialize_some ∧
    (partialSerializer s skipf).serialize_unit = s.serialize_unit ∧
    (partialSerializer s skipf).serialize_unit_struct = s.serialize_unit_struct ∧
    (partialSerializer s skipf).serialize_unit_variant = s.serialize_unit_variant ∧
    (partialSerializer s skipf).serialize_newtype_struct = s.serialize_newtype_struct ∧
    (partialSerializer s skipf).serialize_newtype_variant = s.serialize_newtype_variant ∧
    (partialSerializer s skipf).serialize_seq = s.serialize_seq ∧
    (partialSerializer s skipf).serialize_tuple = s.serialize_tuple ∧
    (partialSerializer s skipf).serialize_tuple_struct = s.serialize_tuple_struct ∧
    (partialSerializer s skipf).serialize_tuple_variant = s.serialize_tuple_variant ∧
    (partialSerializer s skipf).serialize_map = s.serialize_map ∧
    (partialSerializer s skipf).serialize_struct_variant = s.serialize_struct_variant ∧
    (partialSerializer s skipf).collect_str = s.collect_str ∧
    (partialSerializer s skipf).collect_seq = s.collect_seq ∧
    (partialSerializer s skipf).collect_map = s.collect_map :=
  ⟨rfl, rfl, rfl, rfl, rfl, rfl, rfl, rfl, rfl, rfl, rfl, rfl, rfl, rfl, rfl,
   rfl, rfl, rfl, rfl, rfl, rfl, rfl, rfl, rfl, rfl, rfl, rfl, rfl, rfl, rfl,
   rfl, rfl, rfl⟩

/-- Claim C4: the named-struct field path.  A field whose descriptor the
filter skips is routed to the backend's explicit `skip_field` for that name
and its value is never submitted; a non-skipped field is forwarded with name
and value unchanged; begin-struct is forwarded with the same struct name and
declared length (the backend state merely being paired with the filter);
end-struct forwards unchanged. -/
theorem struct_field_path (b : StructBackend Ok E St)
    (skipf : Field → Option Bool) (st : St) (key : String) (v : SValue) :
    (skipf (Field.mk key) = some true →
      psSerializeField b skipf st key v = some (b.skip_field st key)) ∧
    (skipf (Field.mk key) = some false →
      psSerializeField b skipf st key v = some (b.serialize_field st key v)) ∧
    (∀ (SeqT TupT TST TVT MapT StT SVT : Type)
      (s : Serializer Ok E SeqT TupT TST TVT MapT StT SVT) (name : String) (len : Nat),
      (partialSerializer s skipf).serialize_struct name len =
        (s.serialize_struct name len).map (fun ss => { ss := ss, filterSkip := skipf })) ∧
    psEndStruct b st = b.endStruct st := by
  refine ⟨?_, ?_, fun _ _ _ _ _ _ _ s name len => rfl, rfl⟩
  · intro h
    simp [psSerializeField, psSkipField, h]
  · intro h
    simp [psSerializeField, h]

/-- Witness for the struct field path at a concrete backend and filter: the
field named "secret" is skipped, the field named "age" is forwarded. -/
theorem struct_field_path_witness :
    psSerializeField unitStructBackend (fun f => some (f.name == "secret")) ()
        "secret" (SValue.bool true) =
      some (unitStructBackend.skip_field () "secret") ∧
    psSerializeField unitStructBackend (fun f => some (f.name == "secret")) ()
        "age" (SValue.u8 3) =
      some (unitStructBackend.serialize_field () "age" (SValue.u8 3)) :=
  ⟨(struct_field_path unitStructBackend (fun f => some (f.name == "secret"))
      () "secret" (SValue.bool true)).1 (by decide),
   (struct_field_path unitStructBackend (fun f => some (f.name == "secret"))
      () "age" (SValue.u8 3)).2.1 (by decide)⟩

/-- Claim C5: whole-entry map filtering.  A string key is probed through the
key sub-serializer, converted to a field descriptor and judged by the
filter; the entry is forwarded to the backend's `serialize_entry` exactly
when the filter does not skip it.  Any key whose serialization is not a
string makes `serialize_entry` answer the error "key should serialize to a
string". -/
theorem map_entry_filtering (b : MapBackend Ok E St) (custom : String → E)
    (skipf : Field → Option Bool) (st : St) (v : SValue) :
    (∀ (s : String) (bb : Bool), skipf (Field.mk s) = some bb →
      pmSerializeEntry b custom skipf st (SValue.str s) v =
        some (if bb then .ok st else b.serialize_entry st (SValue.str s) v)) ∧
    (∀ k : SValue, k.isStr = false →
      pmSerializeEntry b custom skipf st k v = some (.error (custom KEY_ERR))) := by
  constructor
  · intro s bb h
    cases bb <;> simp [pmSerializeEntry, keyProbe, h]
  · intro k hk
    cases k <;> simp_all [pmSerializeEntry, keyProbe, SValue.isStr]

/-- Witness for whole-entry map filtering at the counting backend with the
set filter `{ "a" }`: key "a" is emitted (count grows), key "b" is skipped,
the non-string key `7u8` errors with the exact message. -/
theorem map_entry_filtering_witness :
    pmSerializeEntry countMapBackend id (btreeSetSkip [Field.mk "a"]) 0
      (SValue.str "a") (SValue.u8 1) = some (.ok 1) ∧
    pmSerializeEntry countMapBackend id (btreeSetSkip [Field.mk "a"]) 0
      (SValue.str "b") (SValue.u8 1) = some (.ok 0) ∧
    pmSerializeEntry countMapBackend id (btreeSetSkip [Field.mk "a"]) 0
      (SValue.u8 7) (SValue.u8 1) =
      some (.error "key should serialize to a string") :=
  ⟨((map_entry_filtering countMapBackend id (btreeSetSkip [Field.mk "a"]) 0
      (SValue.u8 1)).1 "a" false (by decide)).trans rfl,
   ((map_entry_filtering countMapBackend id (btreeSetSkip [Field.mk "a"]) 0
      (SValue.u8 1)).1 "b" true (by decide)).trans rfl,
   ((map_entry_filtering countMapBackend id (btreeSetSkip [Field.mk "a"]) 0
      (SValue.u8 1)).2 (SValue.u8 7) rfl).trans rfl⟩

/-- Claim C6 (counterexample): the lone-key and lone-value rejections carry
the messages actually written in `src/src/map.rs`, which are not the message
the claim states. -/
theorem lone_key_message_mismatch :
    pmSerializeKey unitMapBackend id () (SValue.bool true) =
      .error LONE_KEYS_MSG ∧
    pmSerializeValue unitMapBackend id () (SValue.bool true) =
      .error LONE_VALUES_MSG ∧
    LONE_KEYS_MSG ≠
      "cannot perform partial serialization of lone keys/values; use whole-entry emission" ∧
    LONE_VALUES_MSG ≠
      "cannot perform partial serialization of lone keys/values; use whole-entry emission" :=
  ⟨rfl, rfl, by decide, by decide⟩

/-- Claim C6 (amended): every call to the filtering map adapter's
`serialize_key`, and every call to `serialize_value`, regardless of
arguments and backend, answers a recoverable serialization error — with the
messages "cannot perform partial serialization of lone keys, use
`serialize_entry` instead if possible" and "... lone values ..."
respectively — without invoking the wrapped backend (the result is
independent of the backend and its state). -/
theorem lone_key_value_always_error (b : MapBackend Ok E St)
    (custom : String → E) (st : St) (k v : SValue) :
    pmSerializeKey b custom st k = .error (custom LONE_KEYS_MSG) ∧
    pmSerializeValue b custom st v = .error (custom LONE_VALUES_MSG) :=
  ⟨rfl, rfl⟩

/-- Claim C7 (counterexample): inverse count arithmetic fails as stated
when the inner estimate exceeds the total.  The set filter `{"a", "b"}`
reports `Some 2` regardless of the total (and the map adapters accept such
oversized selections without complaint), so with the known total `Some 1`
both operands are known, yet the `usize` subtraction `1 - 2` underflows:
the call panics instead of returning `total - inner` — no value is
returned at all. -/
theorem inverse_filtered_len_underflow :
    btreeSetFilteredLen [Field.mk "a", Field.mk "b"] (some 1) = some 2 ∧
    (InverseFilter.mk ⟨btreeSetSkip [Field.mk "a", Field.mk "b"],
        btreeSetFilteredLen [Field.mk "a", Field.mk "b"]⟩).filtered_len
      (some 1) = none ∧
    (∀ r : Option Nat,
      (InverseFilter.mk ⟨btreeSetSkip [Field.mk "a", Field.mk "b"],
          btreeSetFilteredLen [Field.mk "a", Field.mk "b"]⟩).filtered_len
        (some 1) ≠ some r) := by
  refine ⟨rfl, by decide, ?_⟩
  intro r h
  simp [InverseFilter.filtered_len, btreeSetFilteredLen] at h

/-- Claim C7 (amended): inverse count arithmetic.
`InverseFilter::filtered_len` returns unknown whenever the total or the
inner estimate is unknown; when both are known and the inner estimate does
not exceed the total it returns the total minus the inner estimate; when
the inner estimate exceeds the total the `usize` subtraction underflows and
the call panics rather than returning a value. -/
theorem inverse_filtered_len_arith (F : SerializeFilter) :
    ((InverseFilter.mk F).filtered_len none = some none) ∧
    (∀ l : Nat, F.filtered_len (some l) = none →
      (InverseFilter.mk F).filtered_len (some l) = some none) ∧
    (∀ (l fl : Nat), F.filtered_len (some l) = some fl → fl ≤ l →
      (InverseFilter.mk F).filtered_len (some l) = some (some (l - fl))) ∧
    (∀ (l fl : Nat), F.filtered_len (some l) = some fl → l < fl →
      (InverseFilter.mk F).filtered_len (some l) = none) := by
  refine ⟨?_, ?_, ?_, ?_⟩
  · unfold InverseFilter.filtered_len
    cases F.filtered_len none <;> rfl
  · intro l h
    simp [InverseFilter.filtered_len, h]
  · intro l fl h hle
    simp [InverseFilter.filtered_len, h, hle]
  · intro l fl h hlt
    simp [InverseFilter.filtered_len, h, Nat.not_le.mpr hlt]

/-- Witness for the inverse count arithmetic: with the identity estimate
and total 3 the inverse reports 0; an unknown total stays unknown; with the
constant estimate 5 and total 1 the subtraction underflows and panics. -/
theorem inverse_filtered_len_arith_witness :
    (InverseFilter.mk ⟨fun _ => some false, fun l => l⟩).filtered_len (some 3) =
      some (some 0) ∧
    (InverseFilter.mk ⟨fun _ => some false, fun l => l⟩).filtered_len none =
      some none ∧
    (InverseFilter.mk ⟨fun _ => some false, fun _ => some 5⟩).filtered_len
      (some 1) = none :=
  ⟨(inverse_filtered_len_arith ⟨fun _ => some false, fun l => l⟩).2.2.1 3 3 rfl
      (by decide),
   (inverse_filtered_len_arith ⟨fun _ => some false, fun l => l⟩).1,
   (inverse_filtered_len_arith ⟨fun _ => some false, fun _ => some 5⟩).2.2.2 1 5
      rfl (by decide)⟩

/-- Running the entry loop through the filtering adapter against the
counting backend adds exactly the number of entries whose key field is a
member of the set filter. -/
theorem runMapEntries_count (s : List Field) (entries : List (String × SValue)) :
    ∀ n : Nat,
    runMapEntries (pmSerializeEntry countMapBackend id (btreeSetSkip s)) n entries =
      some (.ok (n + entries.countP (fun kv => decide (Field.mk kv.1 ∈ s)))) := by
  induction entries with
  | nil => intro n; simp [runMapEntries]
  | cons kv rest ih =>
    intro n
    obtain ⟨k, v⟩ := kv
    by_cases hmem : Field.mk k ∈ s
    · have hstep : pmSerializeEntry countMapBackend id (btreeSetSkip s) n
          (SValue.str k) v = some (.ok (n + 1)) := by
        simp [pmSerializeEntry, keyProbe, btreeSetSkip, hmem, countMapBackend]
      rw [runMapEntries, hstep]
      dsimp only
      rw [ih (n + 1)]
      have hcp : List.countP (fun kv => decide (Field.mk kv.1 ∈ s))
          ((k, v) :: rest) =
          List.countP (fun kv => decide (Field.mk kv.1 ∈ s)) rest + 1 := by
        rw [List.countP_cons]
        simp [hmem]
      rw [hcp]
      simp only [Option.some.injEq, Except.ok.injEq]
      omega
    · have hstep : pmSerializeEntry countMapBackend id (btreeSetSkip s) n
          (SValue.str k) v = some (.ok n) := by
        simp [pmSerializeEntry, keyProbe, btreeSetSkip, hmem, countMapBackend]
      rw [runMapEntries, hstep]
      dsimp only
      rw [ih n]
      have hcp : List.countP (fun kv => decide (Field.mk kv.1 ∈ s))
          ((k, v) :: rest) =
          List.countP (fun kv => decide (Field.mk kv.1 ∈ s)) rest := by
        rw [List.countP_cons]
        simp [hmem]
      rw [hcp]

/-- A duplicate-free list counts the members of a duplicate-free subset
exactly once each. -/
theorem countP_mem_eq_length :
    ∀ (l s : List Field), l.Nodup → s.Nodup → (∀ f ∈ s, f ∈ l) →
      l.countP (fun f => decide (f ∈ s)) = s.length := by
  intro l
  induction l with
  | nil =>
    intro s _ _ hsub
    cases s with
    | nil => rfl
    | cons f s' => exact absurd (hsub f (by simp)) (by simp)
  | cons a l' ih =>
    intro s hl hs hsub
    have hal' : a ∉ l' := (List.nodup_cons.mp hl).1
    have hl' : l'.Nodup := (List.nodup_cons.mp hl).2
    rw [List.countP_cons]
    by_cases ha : a ∈ s
    · have hcongr : l'.countP (fun f => decide (f ∈ s)) =
          l'.countP (fun f => decide (f ∈ s.erase a)) := by
        apply List.countP_congr
        intro f hf
        have hfa : f ≠ a := fun h => hal' (h ▸ hf)
        simp [List.mem_erase_of_ne hfa]
      have hsub' : ∀ f ∈ s.erase a, f ∈ l' := by
        intro f hf
        have hfs : f ∈ s := List.mem_of_mem_erase hf
        have hfa : f ≠ a := (List.Nodup.mem_erase_iff hs).mp hf |>.1
        rcases List.mem_cons.mp (hsub f hfs) with rfl | hfl'
        · exact absurd rfl hfa
        · exact hfl'
      have hlen : 0 < s.length := List.length_pos_of_mem ha
      rw [hcongr, ih (s.erase a) hl' (hs.erase a) hsub',
        List.length_erase_of_mem ha, if_pos (by simp [ha])]
      omega
    · have hsub' : ∀ f ∈ s, f ∈ l' := by
        intro f hf
        rcases List.mem_cons.mp (hsub f hf) with rfl | hfl'
        · exact absurd hf ha
        · exact hfl'
      rw [ih s hl' hs hsub', if_neg (by simp [ha])]
      omega

/-- Claim C8 (counterexample): count consistency fails as stated.  With the
one-element map `{"a": 0}` and the set filter `{"b"}` (a descriptor naming
no key of the map, which the map adapters accept without complaint), the
filter's `filtered_len` reports 1 while the serialization emits 0 entries. -/
theorem count_consistency_counterexample :
    btreeSetFilteredLen [Field.mk "b"] (some 1) = some 1 ∧
    emittedEntryCount (btreeSetSkip [Field.mk "b"]) [("a", SValue.u8 0)] = some 0 ∧
    (1 : Nat) ≠ 0 :=
  ⟨rfl, by decide, by decide⟩

/-- Claim C8 (amended): count consistency for the set-based map filters,
under the selection contract.  When every descriptor in the set filter names
a key of the map (and keys are distinct, as map keys are), the value
reported by `filtered_len` — the set's size, for any claimed total — equals
the number of entries actually submitted to the backend. -/
theorem set_filter_count_consistency (s : List Field)
    (entries : List (String × SValue))
    (hk : (entries.map (fun kv => Field.mk kv.1)).Nodup) (hs : s.Nodup)
    (hsub : ∀ f ∈ s, f ∈ entries.map (fun kv => Field.mk kv.1)) :
    btreeSetFilteredLen s (some entries.length) = some s.length ∧
    hashSetFilteredLen s (some entries.length) = some s.length ∧
    emittedEntryCount (btreeSetSkip s) entries = some s.length := by
  refine ⟨rfl, rfl, ?_⟩
  unfold emittedEntryCount serializeMapViaProxy
  rw [show countMapBackend.serialize_map (some entries.length) =
    Except.ok 0 from rfl]
  dsimp only
  rw [runMapEntries_count s entries 0]
  have hcount := countP_mem_eq_length (entries.map (fun kv => Field.mk kv.1))
    s hk hs hsub
  rw [List.countP_map] at hcount
  dsimp only
  rw [Nat.zero_add]
  exact congrArg some hcount

/-- Witness for set-filter count consistency at the map
`{"a": 0, "c": 1}` with the selection `{"a"}`: `filtered_len` reports 1 and
exactly 1 entry is emitted. -/
theorem set_filter_count_consistency_witness :
    btreeSetFilteredLen [Field.mk "a"] (some 2) = some 1 ∧
    hashSetFilteredLen [Field.mk "a"] (some 2) = some 1 ∧
    emittedEntryCount (btreeSetSkip [Field.mk "a"])
      [("a", SValue.u8 0), ("c", SValue.u8 1)] = some 1 :=
  set_filter_count_consistency [Field.mk "a"]
    [("a", SValue.u8 0), ("c", SValue.u8 1)] (by decide) (by decide) (by decide)

/-- The generated `with_fields` loop panics as soon as it reaches a
selected field whose name is not among the filter's declared names. -/
theorem genFold_none (sel : List Field) :
    ∀ flags : List (String × Bool), (∃ f ∈ sel, f.name ∉ flags.map Prod.fst) →
    sel.foldlM (fun fl f => genSetFlag fl f.name) flags = none := by
  induction sel with
  | nil => intro flags h; simp at h
  | cons g rest ih =>
    intro flags h
    by_cases hg : g.name ∈ flags.map Prod.fst
    · obtain ⟨flags1, h1⟩ := genSetFlag_some_of_mem flags g.name hg
      obtain ⟨hkeys1, -, -⟩ := genSetFlag_spec flags flags1 g.name h1
      rw [List.foldlM_cons, h1]
      refine ih flags1 ?_
      obtain ⟨f, hf, hnot⟩ := h
      rcases List.mem_cons.mp hf with rfl | hf'
      · exact absurd hg hnot
      · exact ⟨f, hf', by rw [hkeys1]; exact hnot⟩
    · rw [List.foldlM_cons, genSetFlag_none_of_not_mem flags g.name hg]
      rfl

/-- `BTreeSet` insertion adds exactly the inserted field to the members. -/
theorem btreeInsert_mem (l : List Field) (f g : Field) :
    g ∈ btreeInsert l f ↔ g = f ∨ g ∈ l := by
  induction l with
  | nil => simp [btreeInsert]
  | cons a rest ih =>
    simp only [btreeInsert]
    by_cases h1 : f.name < a.name
    · rw [if_pos h1]
      simp [List.mem_cons]
    · rw [if_neg h1]
      by_cases h2 : f.name = a.name
      · rw [if_pos h2]
        have hfa : f = a := by
          cases f; cases a; simpa using h2
        subst hfa
        simp only [List.mem_cons]
        tauto
      · rw [if_neg h2]
        simp only [List.mem_cons, ih]
        tauto

/-- Collecting a selection into a `BTreeSet` preserves exactly its
members. -/
theorem btreeCollect_mem (sel : List Field) (g : Field) :
    g ∈ btreeCollect sel ↔ g ∈ sel := by
  suffices h : ∀ acc, g ∈ sel.foldl btreeInsert acc ↔ g ∈ acc ∨ g ∈ sel by
    simpa [btreeCollect] using h []
  induction sel with
  | nil => intro acc; simp
  | cons f rest ih =>
    intro acc
    rw [List.foldl_cons, ih (btreeInsert acc f)]
    simp only [btreeInsert_mem, List.mem_cons]
    tauto

/-- Collecting a selection into a `HashSet` preserves exactly its
members. -/
theorem hashCollect_mem (sel : List Field) (g : Field) :
    g ∈ hashCollect sel ↔ g ∈ sel := by
  suffices h : ∀ acc,
      g ∈ sel.foldl (fun acc f => if acc.contains f then acc else acc ++ [f]) acc ↔
        g ∈ acc ∨ g ∈ sel by
    simpa [hashCollect] using h []
  induction sel with
  | nil => intro acc; simp
  | cons f rest ih =>
    intro acc
    rw [List.foldl_cons]
    by_cases hc : Field.mk f.name ∈ acc
    · have hcb : acc.contains f = true := by
        simpa using hc
      rw [if_pos hcb, ih acc]
      simp only [List.mem_cons]
      constructor
      · tauto
      · rintro (h | rfl | h)
        · exact Or.inl h
        · exact Or.inl hc
        · exact Or.inr h
    · have hcb : ¬ acc.contains f = true := by
        simpa using hc
      rw [if_neg hcb, ih (acc ++ [f])]
      simp only [List.mem_append, List.mem_singleton, List.mem_cons]
      tauto

/-- Claim C9 (counterexample): the associative-container `with_fields`
accepts a selection naming no key of the map and returns a normal filter
value containing the unknown descriptor — it does not abort. -/
theorem unknown_selection_map_counterexample :
    btreeMapWithFields ["a"] (fun _ => [Field.mk "b"]) = [Field.mk "b"] ∧
    hashMapWithFields ["a"] (fun _ => [Field.mk "b"]) = [Field.mk "b"] := by
  constructor <;> decide

/-- Claim C9 (amended): unknown-selection severity differs by call path.
For derive-generated containers, a selection containing a descriptor whose
name is outside the field set makes `with_fields` panic ("unknown field",
modelled as `none`); the map adapters perform no such check — their
`with_fields` always returns normally, and the resulting set filter holds
exactly the selected descriptors, known to the map or not. -/
theorem unknown_selection_fatality (names keys : List String)
    (select : List Field → List Field) :
    ((∃ f ∈ select (genFields names), f.name ∉ names) →
      genWithFields names select = none) ∧
    (∀ f : Field, f ∈ btreeMapWithFields keys select ↔ f ∈ select (keys.map Field.mk)) ∧
    (∀ f : Field, f ∈ hashMapWithFields keys select ↔ f ∈ select (keys.map Field.mk)) := by
  refine ⟨?_, ?_, ?_⟩
  · intro h
    unfold genWithFields
    apply genFold_none
    obtain ⟨f, hf, hnot⟩ := h
    exact ⟨f, hf, by rw [genFieldsInit_keys]; exact hnot⟩
  · intro f
    exact btreeCollect_mem _ f
  · intro f
    exact hashCollect_mem _ f

/-- Witness for the unknown-selection split: selecting the unknown name "b"
over the field set `["a"]` panics in the generated path and is silently
collected by the map path. -/
theorem unknown_selection_fatality_witness :
    genWithFields ["a"] (fun _ => [Field.mk "b"]) = none ∧
    Field.mk "b" ∈ btreeMapWithFields ["a"] (fun _ => [Field.mk "b"]) :=
  ⟨(unknown_selection_fatality ["a"] ["a"] (fun _ => [Field.mk "b"])).1
      ⟨Field.mk "b", by decide, by decide⟩,
   ((unknown_selection_fatality ["a"] ["a"] (fun _ => [Field.mk "b"])).2.1
      (Field.mk "b")).mpr (by decide)⟩

/-- Claim C10: skip decisions are effect-free on the backend.  Probing a
string key produces only the filter's boolean (lifted into the
sub-serializer's result), and a skipped entry leaves the backend's map
serializer untouched: `serialize_entry` succeeds returning the state it was
given, for every backend. -/
theorem skip_decision_effect_free (b : MapBackend Ok E St)
    (custom : String → E) (skipf : Field → Option Bool) (st : St)
    (s : String) (v : SValue) :
    keyProbe custom skipf (SValue.str s) = (skipf (Field.mk s)).map Except.ok ∧
    (skipf (Field.mk s) = some true →
      pmSerializeEntry b custom skipf st (SValue.str s) v = some (.ok st)) := by
  refine ⟨rfl, ?_⟩
  intro h
  simp [pmSerializeEntry, keyProbe, h]

/-- Witness for skip-effect-freeness: with the empty set filter every key is
skipped; at the counting backend with 5 entries already counted, a skipped
entry leaves the count at 5. -/
theorem skip_decision_effect_free_witness :
    pmSerializeEntry countMapBackend id (btreeSetSkip []) 5 (SValue.str "x")
      (SValue.u8 0) = some (.ok 5) :=
  (skip_decision_effect_free countMapBackend id (btreeSetSkip []) 5 "x"
    (SValue.u8 0)).2 (by decide)

end SerdePartial
